import Mathlib

/-!
# Verification of the `sketch` TUI runtime core

Shallow embedding of the `sketch` crate (src/lib.rs, src/msg.rs, src/style.rs):
a Model-View-Update terminal runtime. We embed

* the type-erased message envelope `Msg` (src/msg.rs) as a tagged dependent
  pair: the tag models `TypeId`, the payload the boxed `dyn Any` value;
* the concrete built-in payload types `Quit`, `Key`, `Mouse`, `Focus`,
  `Resize`, `Paste` (src/msg.rs) and the crossterm event types they are
  built from (external boundary types, modelled structurally);
* the run loop `App::run` (src/lib.rs lines 142-176) as a trace-producing
  function: the channel contents are an explicit list of envelopes, chains
  of follow-up messages are driven by fuel (the `while let` loop in the
  source can run forever if the model keeps re-emitting messages);
* a second, fault-aware embedding of `App::run` that tracks the terminal's
  raw-mode/alternate-screen state and models backend I/O failures (the `?`
  operator), consumer panics (`startup`/`update`/`view`), and the panic
  hook installed by `set_panic_hook` (src/lib.rs lines 212-219);
* the event-source thread `spawn_crossterm_event_thread` (src/lib.rs lines
  193-210) as a pure translation from a list of raw events to envelopes;
* the styling helper `Style` with its builder methods, `Style::render`, and
  `visible_length` (src/style.rs).  `Style::render` consults the terminal
  size (`terminal_size().unwrap()`) and performs two unsigned subtractions;
  both possible panics are modelled by an `Option` result.
-/

namespace Sketch

/-! ## Message envelope (src/msg.rs)

`Msg` holds a `Box<dyn Any + Send>`.  `Any` identity is by `TypeId`; we
model the open universe of payload types as a family `F : τ → Type` indexed
by a type `τ` of type-ids with decidable equality.  `Msg::new` boxes a
payload, `Msg::cast` is `downcast_ref` (compare type-ids, return the payload
on a match), `Msg::is` is `Any::is` (compare type-ids only). -/

structure MsgG (τ : Type u) (F : τ → Type v) where
  tag : τ
  payload : F tag

/-- `Msg::new::<M>(msg)` — box a payload, remembering its concrete type. -/
def MsgG.new {τ : Type u} {F : τ → Type v} (t : τ) (v : F t) : MsgG τ F :=
  ⟨t, v⟩

/-- `Msg::cast::<M>()` = `self.msg.downcast_ref::<M>()`: if the stored
type-id equals the probed one, return the payload, else `None`. -/
def MsgG.cast {τ : Type u} {F : τ → Type v} [DecidableEq τ]
    (m : MsgG τ F) (t : τ) : Option (F t) :=
  if h : m.tag = t then some (h ▸ m.payload) else none

/-- `Msg::is::<M>()` = `self.msg.is::<M>()`: compare type-ids. -/
def MsgG.isTy {τ : Type u} {F : τ → Type v} [DecidableEq τ]
    (m : MsgG τ F) (t : τ) : Bool :=
  decide (m.tag = t)

/-! ### Concrete payload universe

The built-in message payloads of src/msg.rs, plus an open supply of
consumer-defined payload types (`custom n`; any `Send` type can be a
`Message`, its contents only matter to the consumer's `update`, so we carry
a `Nat`). The crossterm input types (`KeyEvent`, `MouseEvent`, …) are
external boundary types, modelled with the fields the crate copies. -/

/-- crossterm `KeyCode` (external boundary type, representative variants). -/
inductive KeyCode where
  | Backspace
  | Enter
  | Esc
  | Tab
  | Up
  | Down
  | Char (c : Char)
deriving DecidableEq

/-- crossterm `KeyModifiers` bitflags (external boundary type). -/
structure KeyModifiers where
  shift : Bool
  control : Bool
  alt : Bool
  sup : Bool
  hyper : Bool
  meta : Bool
deriving DecidableEq

/-- crossterm `KeyEventKind` (external boundary type). -/
inductive KeyEventKind where
  | Press
  | Repeat
  | Release
deriving DecidableEq

/-- crossterm `KeyEventState` bitflags (external boundary type). -/
structure KeyEventState where
  keypad : Bool
  capsLock : Bool
  numLock : Bool
deriving DecidableEq

/-- crossterm `KeyEvent` (external boundary type). -/
structure KeyEvent where
  code : KeyCode
  modifiers : KeyModifiers
  kind : KeyEventKind
  state : KeyEventState
deriving DecidableEq

/-- `Key` message payload (src/msg.rs lines 59-65). -/
structure Key where
  code : KeyCode
  modifiers : KeyModifiers
  kind : KeyEventKind
  state : KeyEventState
deriving DecidableEq

/-- `impl From<KeyEvent> for Key` (src/msg.rs lines 83-92). -/
def Key.fromEvent (value : KeyEvent) : Key :=
  { code := value.code
    modifiers := value.modifiers
    kind := value.kind
    state := value.state }

/-- crossterm `MouseButton` (external boundary type). -/
inductive MouseButton where
  | Left
  | Right
  | Middle
deriving DecidableEq

/-- crossterm `MouseEventKind` (external boundary type). -/
inductive MouseEventKind where
  | Down (b : MouseButton)
  | Up (b : MouseButton)
  | Drag (b : MouseButton)
  | Moved
  | ScrollDown
  | ScrollUp
  | ScrollLeft
  | ScrollRight
deriving DecidableEq

/-- crossterm `MouseEvent` (external boundary type); `column`/`row` are
`u16` in the source, copied verbatim, so `Nat` suffices here. -/
structure MouseEvent where
  kind : MouseEventKind
  modifiers : KeyModifiers
  column : Nat
  row : Nat
deriving DecidableEq

/-- `Mouse` message payload (src/msg.rs lines 96-103). -/
structure Mouse where
  kind : MouseEventKind
  modifiers : KeyModifiers
  column : Nat
  row : Nat
deriving DecidableEq

/-- `impl From<MouseEvent> for Mouse` (src/msg.rs lines 159-168). -/
def Mouse.fromEvent (value : MouseEvent) : Mouse :=
  { kind := value.kind
    column := value.column
    row := value.row
    modifiers := value.modifiers }

/-- `Focus` message payload (src/msg.rs lines 172-177). -/
inductive Focus where
  | Gained
  | Lost
deriving DecidableEq

/-- `Resize` message payload (src/msg.rs lines 187-192); `width`/`height`
are `u16` copied verbatim from the event. -/
structure Resize where
  width : Nat
  height : Nat
deriving DecidableEq

/-- `Paste` message payload (src/msg.rs line 182, behind the `paste`
feature). -/
structure Paste where
  text : String
deriving DecidableEq

/-- The type-ids (`TypeId`s) of the payload types that can occur in this
program: the built-ins of src/msg.rs (`Quit` is the zero-field struct at
line 54) and an open supply of consumer-defined `Message` types. -/
inductive STag where
  | quit
  | key
  | mouse
  | focus
  | resize
  | paste
  | custom (n : Nat)
deriving DecidableEq

/-- The payload carried by each type-id. `Quit` is a zero-field struct,
hence `Unit`; consumer-defined payloads carry opaque data. -/
def SF : STag → Type
  | .quit => Unit
  | .key => Key
  | .mouse => Mouse
  | .focus => Focus
  | .resize => Resize
  | .paste => Paste
  | .custom _ => Nat

/-- The envelope type used by the run loop: `Msg` of src/msg.rs over the
program's payload universe. -/
abbrev AMsg : Type := MsgG STag SF

/-! ## The run loop `App::run` (src/lib.rs lines 142-176)

The loop body is

```text
'outer: loop {
    let view = self.model.view().replace("\n", "\r\n");
    execute!(stdout, Clear(ClearType::All), MoveTo(0, 0), Print(&view))?;
    stdout.flush()?;
    let mut m = Some(self.message_receiver.recv().unwrap());
    while let Some(msg) = m {
        if msg.is::<Quit>() { break 'outer; }
        let out = self.model.update(&msg);
        self.model = out.0;
        m = out.1;
    }
}
```

We embed it as a trace-producing function.  The channel contents are the
explicit list of envelopes the receiver will yield, in FIFO order; an empty
list means the next `recv()` blocks forever (the app itself retains a
`Sender`, so the channel never closes).  The inner `while let` chain is
driven by fuel, because the model may re-emit messages forever; `none`
means the fuel ran out before the chain settled. -/

/-- One observable step of the loop: a frame written to the terminal
(`execute!(… Print(&view))` of the newline-converted `view()` output), or
one `update` call consuming one envelope. -/
inductive Ev (σ : Type) where
  | render (frame : String)
  | update (m : AMsg)

/-- `str::replace("\n", "\r\n")` on the output of `view()` (external `std`
function, single-character pattern). -/
def crlfChars : List Char → List Char
  | [] => []
  | c :: rest => if c = '\n' then '\r' :: '\n' :: crlfChars rest else c :: crlfChars rest

/-- The frame written for model state `s`:
`self.model.view().replace("\n", "\r\n")` (src/lib.rs line 155). -/
def frame {σ : Type} (view : σ → String) (s : σ) : String :=
  ⟨crlfChars (view s).data⟩

/-- How the loop left off: `quitHalt` = `break 'outer` after observing a
`Quit` envelope (the only way the loop ends and `run` proceeds to
teardown); `awaiting` = the channel list is exhausted and `recv()` blocks
forever. -/
inductive RunEnd (σ : Type) where
  | quitHalt (s : σ)
  | awaiting (s : σ)

/-- The inner `while let Some(msg) = m` chain (src/lib.rs lines 161-169),
for one received envelope and its follow-ups.  Returns the update events
performed, the model state when the chain stops, and whether it stopped
because `msg.is::<Quit>()` (`true`: `break 'outer`) or because `update`
returned no follow-up (`false`).  `none` = fuel exhausted (the source loop
would still be running). -/
def chain {σ : Type} (upd : σ → AMsg → σ × Option AMsg) :
    Nat → σ → AMsg → Option (List (Ev σ) × σ × Bool)
  | 0, _, _ => none
  | fuel + 1, s, msg =>
    if msg.isTy STag.quit then some ([], s, true)
    else
      match upd s msg with
      | (s', none) => some ([Ev.update msg], s', false)
      | (s', some m2) =>
        (chain upd fuel s' m2).map fun r => (Ev.update msg :: r.1, r.2.1, r.2.2)

/-- The `'outer: loop` of `App::run` (src/lib.rs lines 154-170), starting
at the top of an iteration (about to render), with the given list of
envelopes still to be received from the channel. -/
def runFrom {σ : Type} (upd : σ → AMsg → σ × Option AMsg) (view : σ → String)
    (fuel : Nat) : σ → List AMsg → Option (List (Ev σ) × RunEnd σ)
  | s, [] => some ([Ev.render (frame view s)], .awaiting s)
  | s, msg :: rest =>
    (chain upd fuel s msg).bind fun r =>
      if r.2.2 then
        some (Ev.render (frame view s) :: r.1, .quitHalt r.2.1)
      else
        (runFrom upd view fuel r.2.1 rest).map fun q =>
          (Ev.render (frame view s) :: r.1 ++ q.1, q.2)

/-- `App::run` minus terminal/session management (src/lib.rs lines
148-170): spawn the event thread, send `startup()`'s message (if any) on
the shared channel, then enter the loop.  The event thread already owns a
`Sender` when `startup()`'s message is sent, so the channel order is: the
externally produced envelopes that arrived before the `send` (`pre`), then
the startup envelope, then the later arrivals (`post`). -/
def appRun {σ : Type} (startup : σ → Option AMsg)
    (upd : σ → AMsg → σ × Option AMsg) (view : σ → String)
    (fuel : Nat) (m0 : σ) (pre post : List AMsg) :
    Option (List (Ev σ) × RunEnd σ) :=
  let queue := pre ++ (match startup m0 with | some sm => [sm] | none => []) ++ post
  runFrom upd view fuel m0 queue

/-! ### Relational description of the loop's trace

`Drains upd s m us s'` says: starting from model state `s`, envelope `m`
and its same-turn follow-ups are all consumed by successive `update` calls
(one update event per message of the chain, so a chain with `N` follow-ups
performs `N + 1` updates), none of them is `Quit`, and the model ends in
state `s'`.  `MsgRenders` strings such blocks together: after each
received envelope's chain is fully drained, exactly one render of the
post-chain state occurs, and nothing else. `QuitsDuring` describes a chain
that reaches a `Quit` envelope: the updates performed before `Quit` was
observed, and nothing — no render, no further update — afterwards. -/

inductive Drains {σ : Type} (upd : σ → AMsg → σ × Option AMsg) :
    σ → AMsg → List (Ev σ) → σ → Prop where
  | last {s : σ} {m : AMsg} {s' : σ} :
      m.isTy STag.quit = false → upd s m = (s', none) →
      Drains upd s m [Ev.update m] s'
  | step {s : σ} {m : AMsg} {s' : σ} {m2 : AMsg} {evs : List (Ev σ)} {sf : σ} :
      m.isTy STag.quit = false → upd s m = (s', some m2) →
      Drains upd s' m2 evs sf →
      Drains upd s m (Ev.update m :: evs) sf

inductive MsgRenders {σ : Type} (upd : σ → AMsg → σ × Option AMsg)
    (view : σ → String) : σ → List AMsg → List (Ev σ) → σ → Prop where
  | nil {s : σ} : MsgRenders upd view s [] [] s
  | cons {s : σ} {m : AMsg} {us : List (Ev σ)} {s' : σ} {ms : List AMsg}
      {tr : List (Ev σ)} {sf : σ} :
      Drains upd s m us s' →
      MsgRenders upd view s' ms tr sf →
      MsgRenders upd view s (m :: ms) (us ++ Ev.render (frame view s') :: tr) sf

inductive QuitsDuring {σ : Type} (upd : σ → AMsg → σ × Option AMsg) :
    σ → AMsg → List (Ev σ) → σ → Prop where
  | here {s : σ} {m : AMsg} :
      m.isTy STag.quit = true → QuitsDuring upd s m [] s
  | step {s : σ} {m : AMsg} {s' : σ} {m2 : AMsg} {us : List (Ev σ)} {sf : σ} :
      m.isTy STag.quit = false → upd s m = (s', some m2) →
      QuitsDuring upd s' m2 us sf →
      QuitsDuring upd s m (Ev.update m :: us) sf

/-! ### Concrete models used as witnesses -/

/-- A concrete `Key` payload (Enter, no modifiers, pressed). -/
def cKey : Key :=
  ⟨KeyCode.Enter, ⟨false, false, false, false, false, false⟩,
    KeyEventKind.Press, ⟨false, false, false⟩⟩

/-- A `Key` envelope as the event thread would produce. -/
def ckMsg : AMsg := MsgG.new STag.key cKey

/-- A consumer-defined "Tick" envelope. -/
def tickMsg : AMsg := MsgG.new (STag.custom 0) ((0 : Nat) : SF (STag.custom 0))

/-- A `Quit` envelope, `Msg::new(Quit)`. -/
def quitMsg : AMsg := MsgG.new STag.quit ()

/-- A counter model's `update`: increment on every message, no follow-up. -/
def cUpd : Nat → AMsg → Nat × Option AMsg := fun s _ => (s + 1, none)

/-- A counter model's `view`. -/
def cView : Nat → String := fun _ => "frame"

/-- An `update` that answers the consumer "Tick" message with a `Quit`
follow-up and ignores everything else. -/
def cUpdQ : Nat → AMsg → Nat × Option AMsg :=
  fun s m => if m.isTy (STag.custom 0) then (s + 1, some quitMsg) else (s + 10, none)

/-- The type-ids consumed by `update` calls, in order, of a trace. -/
def updatedTags {σ : Type} : List (Ev σ) → List STag
  | [] => []
  | Ev.update m :: rest => m.tag :: updatedTags rest
  | Ev.render _ :: rest => updatedTags rest

/-- The startup function of the witness counter: emit a consumer "Tick". -/
def cStartup : Nat → Option AMsg := fun _ => some tickMsg

/-! ## Fault-aware embedding of `App::run` (C3)

`App::run` (src/lib.rs lines 142-176) in full:

```text
set_panic_hook();
enable_raw_mode()?;
let mut stdout = io::stdout();
execute!(stdout, EnterAlternateScreen)?;
spawn_crossterm_event_thread(self.message_sender.clone());
if let Some(msg) = self.model.startup() { self.message_sender.send(msg).unwrap(); }
'outer: loop { … view … execute!(…)? … flush()? … recv … update … }
disable_raw_mode()?;
execute!(stdout, LeaveAlternateScreen)?;
Ok(())
```

Here we track the terminal session state (raw mode, alternate screen), let
every backend call fail according to an oracle (`Backend`), and let the
consumer's `startup`/`update`/`view` panic (`Except.error`).  A panic
triggers the hook installed by `set_panic_hook` (src/lib.rs lines
212-219), which attempts `disable_raw_mode` and `LeaveAlternateScreen`
with errors ignored, then re-raises; a backend error propagates through
`?` with no cleanup code on that path. The channel itself never fails
while the driver is alive (the `App` owns a `Sender`), so the `unwrap`s on
`send`/`recv` are not failure points in this model. -/

/-- The terminal session state: is raw input mode enabled, and is the
alternate screen buffer active. -/
structure Term where
  raw : Bool
  alt : Bool
deriving DecidableEq

/-- Success oracle for the terminal backend calls made by `App::run`:
`enable_raw_mode`, `EnterAlternateScreen`, the per-frame
`execute!(Clear…, MoveTo…, Print…)` and `flush` (indexed by frame
number), `disable_raw_mode`, `LeaveAlternateScreen`. -/
structure Backend where
  enableRawOk : Bool
  enterAltOk : Bool
  printOk : Nat → Bool
  flushOk : Nat → Bool
  disableRawOk : Bool
  leaveAltOk : Bool

/-- The panic hook of `set_panic_hook` (src/lib.rs lines 212-219):
`let _ = disable_raw_mode(); let _ = execute!(io::stdout(),
LeaveAlternateScreen);` — attempted in that order, errors discarded —
before the original hook (the fault propagating) runs. -/
def panicRestore (B : Backend) (t : Term) : Term :=
  let t1 := if B.disableRawOk then { t with raw := false } else t
  if B.leaveAltOk then { t1 with alt := false } else t1

/-- A consumer model whose three operations may panic. -/
structure FModel (σ : Type) where
  startup : σ → Except String (Option AMsg)
  update : σ → AMsg → Except String (σ × Option AMsg)
  view : σ → Except String String

/-- How a faultable run ends: `ok` = `run` returned `Ok(())` after `Quit`;
`ioErr` = a backend error escalated through `?` (an `Err` return);
`panicked` = a consumer fault unwound out of `run` (after the panic hook
ran); `blocked` = parked forever in `recv()`; `fuelOut` = fuel exhausted
while the chain was still running. -/
inductive FOutcome where
  | ok
  | ioErr
  | panicked (e : String)
  | blocked
  | fuelOut
deriving DecidableEq

/-- The `'outer` loop of `App::run` with faults, plus the teardown on
`break` (src/lib.rs lines 154-175).  `cur = none` means control is at the
top of the outer loop (about to render then `recv`); `cur = some msg`
means control is inside the `while let` chain holding `msg`. -/
def floop {σ : Type} (B : Backend) (M : FModel σ) :
    Nat → Term → σ → Option AMsg → List AMsg → Nat → Term × FOutcome
  | 0, t, _, _, _, _ => (t, .fuelOut)
  | fuel + 1, t, s, none, queue, rIdx =>
    match M.view s with
    | .error e => (panicRestore B t, .panicked e)
    | .ok _ =>
      if B.printOk rIdx = false then (t, .ioErr)
      else if B.flushOk rIdx = false then (t, .ioErr)
      else
        match queue with
        | [] => (t, .blocked)
        | msg :: rest => floop B M fuel t s (some msg) rest (rIdx + 1)
  | fuel + 1, t, s, some msg, queue, rIdx =>
    if msg.isTy STag.quit then
      if B.disableRawOk = false then (t, .ioErr)
      else
        let t2 : Term := { t with raw := false }
        if B.leaveAltOk = false then (t2, .ioErr)
        else ({ t2 with alt := false }, .ok)
    else
      match M.update s msg with
      | .error e => (panicRestore B t, .panicked e)
      | .ok (s', m2) => floop B M fuel t s' m2 queue rIdx

/-- `App::run` with faults (src/lib.rs lines 142-176): enable raw mode,
enter the alternate screen, spawn the event thread, send `startup()`'s
message on the shared channel, run the loop, tear down. As in `appRun`,
`pre` are the externally produced envelopes already in the channel when
`startup()`'s message is sent, `post` the later arrivals. -/
def frun {σ : Type} (B : Backend) (M : FModel σ) (fuel : Nat) (m0 : σ)
    (pre post : List AMsg) : Term × FOutcome :=
  let t0 : Term := ⟨false, false⟩
  if B.enableRawOk = false then (t0, .ioErr)
  else
    let t1 : Term := { t0 with raw := true }
    if B.enterAltOk = false then (t1, .ioErr)
    else
      let t2 : Term := { t1 with alt := true }
      match M.startup m0 with
      | .error e => (panicRestore B t2, .panicked e)
      | .ok sm =>
        let queue := pre ++ (match sm with | some m => [m] | none => []) ++ post
        floop B M fuel t2 m0 none queue 0

/-- A backend on which every call succeeds. -/
def okBackend : Backend :=
  ⟨true, true, fun _ => true, fun _ => true, true, true⟩

/-- A backend on which `stdout.flush()` always fails (a backend I/O
fault in the middle of the loop). -/
def flushFailBackend : Backend :=
  ⟨true, true, fun _ => true, fun _ => false, true, true⟩

/-- A trivial consumer model that never panics and never follows up. -/
def trivialFModel : FModel Unit :=
  ⟨fun _ => .ok none, fun s _ => .ok (s, none), fun _ => .ok ""⟩

/-- A consumer model whose `view` panics at the first render. -/
def panickyFModel : FModel Unit :=
  ⟨fun _ => .ok none, fun s _ => .ok (s, none), fun _ => .error "boom"⟩

/-! ## The event-source thread (C7)

`spawn_crossterm_event_thread` (src/lib.rs lines 193-210) loops forever:
read one crossterm event, translate it to exactly one `Msg`, send it.
Under `#[cfg(not(feature = "paste"))]` a paste event hits `continue`: no
envelope, the loop moves on to the next event.  We model the thread's
observable behaviour as the translation it applies to the (arbitrary)
stream of events the backend yields, with the `paste` feature a
parameter. -/

/-- crossterm `Event` (external boundary type). -/
inductive Event where
  | FocusGained
  | FocusLost
  | Key (e : KeyEvent)
  | Mouse (e : MouseEvent)
  | Resize (width height : Nat)
  | Paste (s : String)

/-- Is this raw event a paste event. -/
def Event.isPaste : Event → Bool
  | .Paste _ => true
  | _ => false

/-- The match arm of `spawn_crossterm_event_thread` for one raw event:
`some` = the envelope sent, `none` = the `continue` arm (paste with the
feature disabled). -/
def translateEvent (pasteEnabled : Bool) : Event → Option AMsg
  | .FocusGained => some (MsgG.new STag.focus Focus.Gained)
  | .FocusLost => some (MsgG.new STag.focus Focus.Lost)
  | .Key e => some (MsgG.new STag.key (Key.fromEvent e))
  | .Mouse e => some (MsgG.new STag.mouse (Mouse.fromEvent e))
  | .Resize w h => some (MsgG.new STag.resize ⟨w, h⟩)
  | .Paste s => if pasteEnabled then some (MsgG.new STag.paste ⟨s⟩) else none

/-- The sequence of envelopes the event thread sends for a sequence of
raw events, in arrival order. -/
def eventThreadMsgs (pasteEnabled : Bool) (evs : List Event) : List AMsg :=
  evs.filterMap (translateEvent pasteEnabled)

/-- The payload type-id the claim pairs with each raw event class:
focus events to `Focus`, key to `Key`, mouse to `Mouse`, resize to
`Resize`, paste to `Paste`. -/
def eventTag : Event → STag
  | .FocusGained => STag.focus
  | .FocusLost => STag.focus
  | .Key _ => STag.key
  | .Mouse _ => STag.mouse
  | .Resize _ _ => STag.resize
  | .Paste _ => STag.paste

/-! ## Styling (src/style.rs): `Style`, `Style::render`, `visible_length` -/

/-- crossterm `Color` (external boundary type); `u8` components are
`Fin 256`. -/
inductive Color where
  | Reset
  | Black
  | DarkGrey
  | Red
  | DarkRed
  | Green
  | DarkGreen
  | Yellow
  | DarkYellow
  | Blue
  | DarkBlue
  | Magenta
  | DarkMagenta
  | Cyan
  | DarkCyan
  | White
  | Grey
  | Rgb (r g b : Fin 256)
  | AnsiValue (v : Fin 256)
deriving DecidableEq

/-- `Blink` (src/style.rs lines 30-35). -/
inductive Blink where
  | Slow
  | Rapid
deriving DecidableEq

/-- `Align` (src/style.rs lines 39-47); `Left` is the `Default`. -/
inductive Align where
  | Left
  | Center
  | Right
deriving DecidableEq

/-- `Style` (src/style.rs lines 14-26). -/
structure Style where
  fg : Option Color
  bg : Option Color
  bold : Bool
  dim : Bool
  italic : Bool
  underline : Bool
  underlineColor : Option Color
  blink : Option Blink
  reverse : Bool
  crossedOut : Bool
  align : Align
deriving DecidableEq

/-- `Style::new` (src/style.rs lines 82-96). -/
def Style.new : Style :=
  ⟨none, none, false, false, false, false, none, none, false, false, Align.Left⟩

/-- `Style::fg` (src/style.rs lines 99-102). -/
def Style.setFg (s : Style) (color : Color) : Style :=
  { s with fg := some color }

/-- `Style::bg` (src/style.rs lines 105-108). -/
def Style.setBg (s : Style) (color : Color) : Style :=
  { s with bg := some color }

/-- The `fg` arm of the `style_method!` macro (src/style.rs lines 50-56):
`self.fg = Some($value)`. -/
def styleMethodFg (value : Color) (s : Style) : Style :=
  { s with fg := some value }

/-- The `bg` arm of the `style_method!` macro (src/style.rs lines 57-63).
Although the arm is selected by the token `bg` and documents itself as
"Set the background color", its body is `self.fg = Some($value)` — it
assigns the foreground field. -/
def styleMethodBg (value : Color) (s : Style) : Style :=
  { s with fg := some value }

/-- The `underline_color` arm of the `style_method!` macro (src/style.rs
lines 64-70): `self.underline_color = Some($value)`. -/
def styleMethodUnderlineColor (value : Color) (s : Style) : Style :=
  { s with underlineColor := some value }

/-- `Style::left` (src/style.rs line 133). -/
def Style.left (s : Style) : Style := { s with align := Align.Left }

/-- `Style::center` (src/style.rs line 134). -/
def Style.center (s : Style) : Style := { s with align := Align.Center }

/-- `Style::right` (src/style.rs line 135). -/
def Style.right (s : Style) : Style := { s with align := Align.Right }

/-- `Style::black` … `Style::grey`: the 16 foreground shorthands
(src/style.rs lines 148-163), all through the `fg` macro arm. -/
def Style.black (s : Style) : Style := styleMethodFg Color.Black s

/-- `Style::dark_grey` (src/style.rs line 149). -/
def Style.dark_grey (s : Style) : Style := styleMethodFg Color.DarkGrey s

/-- `Style::red` (src/style.rs line 150). -/
def Style.red (s : Style) : Style := styleMethodFg Color.Red s

/-- `Style::dark_red` (src/style.rs line 151). -/
def Style.dark_red (s : Style) : Style := styleMethodFg Color.DarkRed s

/-- `Style::green` (src/style.rs line 152). -/
def Style.green (s : Style) : Style := styleMethodFg Color.Green s

/-- `Style::dark_green` (src/style.rs line 153). -/
def Style.dark_green (s : Style) : Style := styleMethodFg Color.DarkGreen s

/-- `Style::yellow` (src/style.rs line 154). -/
def Style.yellow (s : Style) : Style := styleMethodFg Color.Yellow s

/-- `Style::dark_yellow` (src/style.rs line 155). -/
def Style.dark_yellow (s : Style) : Style := styleMethodFg Color.DarkYellow s

/-- `Style::blue` (src/style.rs line 156). -/
def Style.blue (s : Style) : Style := styleMethodFg Color.Blue s

/-- `Style::dark_blue` (src/style.rs line 157). -/
def Style.dark_blue (s : Style) : Style := styleMethodFg Color.DarkBlue s

/-- `Style::magenta` (src/style.rs line 158). -/
def Style.magenta (s : Style) : Style := styleMethodFg Color.Magenta s

/-- `Style::dark_magenta` (src/style.rs line 159). -/
def Style.dark_magenta (s : Style) : Style := styleMethodFg Color.DarkMagenta s

/-- `Style::cyan` (src/style.rs line 160). -/
def Style.cyan (s : Style) : Style := styleMethodFg Color.Cyan s

/-- `Style::dark_cyan` (src/style.rs line 161). -/
def Style.dark_cyan (s : Style) : Style := styleMethodFg Color.DarkCyan s

/-- `Style::white` (src/style.rs line 162). -/
def Style.white (s : Style) : Style := styleMethodFg Color.White s

/-- `Style::grey` (src/style.rs line 163). -/
def Style.grey (s : Style) : Style := styleMethodFg Color.Grey s

/-- `Style::on_black` … `Style::on_grey`: the 16 background shorthands
(src/style.rs lines 166-181), all through the `bg` macro arm. -/
def Style.on_black (s : Style) : Style := styleMethodBg Color.Black s

/-- `Style::on_dark_grey` (src/style.rs line 167). -/
def Style.on_dark_grey (s : Style) : Style := styleMethodBg Color.DarkGrey s

/-- `Style::on_red` (src/style.rs line 168). -/
def Style.on_red (s : Style) : Style := styleMethodBg Color.Red s

/-- `Style::on_dark_red` (src/style.rs line 169). -/
def Style.on_dark_red (s : Style) : Style := styleMethodBg Color.DarkRed s

/-- `Style::on_green` (src/style.rs line 170). -/
def Style.on_green (s : Style) : Style := styleMethodBg Color.Green s

/-- `Style::on_dark_green` (src/style.rs line 171). -/
def Style.on_dark_green (s : Style) : Style := styleMethodBg Color.DarkGreen s

/-- `Style::on_yellow` (src/style.rs line 172). -/
def Style.on_yellow (s : Style) : Style := styleMethodBg Color.Yellow s

/-- `Style::on_dark_yellow` (src/style.rs line 173). -/
def Style.on_dark_yellow (s : Style) : Style := styleMethodBg Color.DarkYellow s

/-- `Style::on_blue` (src/style.rs line 174). -/
def Style.on_blue (s : Style) : Style := styleMethodBg Color.Blue s

/-- `Style::on_dark_blue` (src/style.rs line 175). -/
def Style.on_dark_blue (s : Style) : Style := styleMethodBg Color.DarkBlue s

/-- `Style::on_magenta` (src/style.rs line 176). -/
def Style.on_magenta (s : Style) : Style := styleMethodBg Color.Magenta s

/-- `Style::on_dark_magenta` (src/style.rs line 177). -/
def Style.on_dark_magenta (s : Style) : Style := styleMethodBg Color.DarkMagenta s

/-- `Style::on_cyan` (src/style.rs line 178). -/
def Style.on_cyan (s : Style) : Style := styleMethodBg Color.Cyan s

/-- `Style::on_dark_cyan` (src/style.rs line 179). -/
def Style.on_dark_cyan (s : Style) : Style := styleMethodBg Color.DarkCyan s

/-- `Style::on_white` (src/style.rs line 180). -/
def Style.on_white (s : Style) : Style := styleMethodBg Color.White s

/-- `Style::on_grey` (src/style.rs line 181). -/
def Style.on_grey (s : Style) : Style := styleMethodBg Color.Grey s

/-- `Style::write_fg_color` (src/style.rs lines 256-278) as the string it
appends. -/
def fgCode : Color → String
  | .Reset => "\x1b[0m"
  | .Black => "\x1b[30m"
  | .DarkGrey => "\x1b[90m"
  | .Red => "\x1b[91m"
  | .DarkRed => "\x1b[31m"
  | .Green => "\x1b[92m"
  | .DarkGreen => "\x1b[32m"
  | .Yellow => "\x1b[93m"
  | .DarkYellow => "\x1b[33m"
  | .Blue => "\x1b[94m"
  | .DarkBlue => "\x1b[34m"
  | .Magenta => "\x1b[95m"
  | .DarkMagenta => "\x1b[35m"
  | .Cyan => "\x1b[96m"
  | .DarkCyan => "\x1b[36m"
  | .White => "\x1b[97m"
  | .Grey => "\x1b[37m"
  | .Rgb r g b =>
    "\x1b[38;2;" ++ Nat.repr r.val ++ ";" ++ Nat.repr g.val ++ ";" ++
      Nat.repr b.val ++ "m"
  | .AnsiValue v => "\x1b[38;5;" ++ Nat.repr v.val ++ "m"

/-- `Style::write_bg_color` (src/style.rs lines 281-303) as the string it
appends. -/
def bgCode : Color → String
  | .Reset => "\x1b[49m"
  | .Black => "\x1b[40m"
  | .DarkGrey => "\x1b[100m"
  | .Red => "\x1b[101m"
  | .DarkRed => "\x1b[41m"
  | .Green => "\x1b[102m"
  | .DarkGreen => "\x1b[42m"
  | .Yellow => "\x1b[103m"
  | .DarkYellow => "\x1b[43m"
  | .Blue => "\x1b[104m"
  | .DarkBlue => "\x1b[44m"
  | .Magenta => "\x1b[105m"
  | .DarkMagenta => "\x1b[45m"
  | .Cyan => "\x1b[106m"
  | .DarkCyan => "\x1b[46m"
  | .White => "\x1b[107m"
  | .Grey => "\x1b[47m"
  | .Rgb r g b =>
    "\x1b[48;2;" ++ Nat.repr r.val ++ ";" ++ Nat.repr g.val ++ ";" ++
      Nat.repr b.val ++ "m"
  | .AnsiValue v => "\x1b[48;5;" ++ Nat.repr v.val ++ "m"

/-- `Style::write_underline_color` (src/style.rs lines 306-328) as the
string it appends. -/
def underlineCode : Color → String
  | .Reset => "\x1b[59m"
  | .Black => "\x1b[58;5;0m"
  | .DarkGrey => "\x1b[58;5;8m"
  | .Red => "\x1b[58;5;9m"
  | .DarkRed => "\x1b[58;5;1m"
  | .Green => "\x1b[58;5;10m"
  | .DarkGreen => "\x1b[58;5;2m"
  | .Yellow => "\x1b[58;5;11m"
  | .DarkYellow => "\x1b[58;5;3m"
  | .Blue => "\x1b[58;5;12m"
  | .DarkBlue => "\x1b[58;5;4m"
  | .Magenta => "\x1b[58;5;13m"
  | .DarkMagenta => "\x1b[58;5;5m"
  | .Cyan => "\x1b[58;5;14m"
  | .DarkCyan => "\x1b[58;5;6m"
  | .White => "\x1b[58;5;15m"
  | .Grey => "\x1b[58;5;7m"
  | .Rgb r g b =>
    "\x1b[58;2;" ++ Nat.repr r.val ++ ";" ++ Nat.repr g.val ++ ";" ++
      Nat.repr b.val ++ "m"
  | .AnsiValue v => "\x1b[58;5;" ++ Nat.repr v.val ++ "m"

/-- The sequence of `result.push_str` calls of `Style::render` before the
alignment padding (src/style.rs lines 206-239): modifier codes in source
order, then foreground, background and underline colors. -/
def styleCodes (st : Style) : String :=
  (if st.bold then "\x1b[1m" else "") ++
  (if st.dim then "\x1b[2m" else "") ++
  (if st.italic then "\x1b[3m" else "") ++
  (if st.underline then "\x1b[4m" else "") ++
  (match st.blink with
    | some Blink.Slow => "\x1b[5m"
    | some Blink.Rapid => "\x1b[6m"
    | none => "") ++
  (if st.reverse then "\x1b[7m" else "") ++
  (if st.crossedOut then "\x1b[9m" else "") ++
  (match st.fg with | some c => fgCode c | none => "") ++
  (match st.bg with | some c => bgCode c | none => "") ++
  (match st.underlineColor with | some c => underlineCode c | none => "")

/-- The state machine of `visible_length` (src/style.rs lines 332-355):
`\x1b` enters escape mode, `m` while in escape mode leaves it, any other
character is counted iff outside an escape sequence. -/
def visibleLengthAux : Bool → Nat → List Char → Nat
  | _, len, [] => len
  | inEsc, len, c :: rest =>
    if c = '\x1b' then visibleLengthAux true len rest
    else if inEsc = true ∧ c = 'm' then visibleLengthAux false len rest
    else if inEsc = false then visibleLengthAux inEsc (len + 1) rest
    else visibleLengthAux inEsc len rest

/-- `visible_length` (src/style.rs lines 332-355). -/
def visibleLength (input : String) : Nat :=
  visibleLengthAux false 0 input.data

/-- `" ".repeat(n)`. -/
def spaces (n : Nat) : String :=
  ⟨List.replicate n ' '⟩

/-- `Style::render` (src/style.rs lines 202-253).  The result of the
terminal size query (`terminal_size().unwrap()`, a `crate` item re-export
of the backend's fallible size query, not itself under src/) is passed in:
`none` makes the `unwrap()` panic.  The two `usize` subtractions
`cols / 2 - len / 2` and `cols - len` are Rust arithmetic that faults on
underflow; both panic-possibilities are the `none` results. -/
def Style.render (st : Style) (sizeQuery : Option (Nat × Nat))
    (text : String) : Option String :=
  match sizeQuery with
  | none => none
  | some sz =>
    let cols := sz.1
    let len := visibleLength text
    match st.align with
    | Align.Left => some (styleCodes st ++ text ++ "\x1b[0m")
    | Align.Center =>
      if len / 2 ≤ cols / 2 then
        some (styleCodes st ++ spaces (cols / 2 - len / 2) ++ text ++ "\x1b[0m")
      else none
    | Align.Right =>
      if len ≤ cols then
        some (styleCodes st ++ spaces (cols - len) ++ text ++ "\x1b[0m")
      else none

/-- A well-formed ANSI escape sequence as `visible_length` understands
them: `ESC`, a body free of `ESC` and `m`, then the terminating `m`. -/
def IsEscSeq (s : String) : Prop :=
  ∃ body, s.data = '\x1b' :: body ++ ['m'] ∧
    ∀ c ∈ body, c ≠ '\x1b' ∧ c ≠ 'm'

/-- Segments for the general counting claim: either plain printable text
(`inl`, no `ESC`) or the body of one escape sequence (`inr`). -/
def segStr : List Char ⊕ List Char → List Char
  | .inl plain => plain
  | .inr body => '\x1b' :: body ++ ['m']

/-- The total length of the plain segments. -/
def plainTotal : List (List Char ⊕ List Char) → Nat
  | [] => 0
  | .inl plain :: rest => plain.length + plainTotal rest
  | .inr _ :: rest => plainTotal rest

/-- Well-formedness of one segment: plain text carries no `ESC`, an
escape body carries neither `ESC` nor the terminating `m`. -/
def segOk : List Char ⊕ List Char → Bool
  | .inl plain => plain.all fun c => c != '\x1b'
  | .inr body => body.all fun c => c != '\x1b' && c != 'm'

/-- A character list that `visible_length` skips entirely wherever it is
inserted at escape-depth zero (e.g. a sequence of ANSI escape codes). -/
def SkipsEscapes (l : List Char) : Prop :=
  ∀ (n : Nat) (rest : List Char),
    visibleLengthAux false n (l ++ rest) = visibleLengthAux false n rest

/-- A `chain` computation that settles without `Quit` is exactly a
fully-drained chain. -/
theorem chain_drains {σ : Type} {upd : σ → AMsg → σ × Option AMsg} :
    ∀ {fuel : Nat} {s : σ} {m : AMsg} {evs : List (Ev σ)} {s' : σ},
      chain upd fuel s m = some (evs, s', false) → Drains upd s m evs s' := by
  intro fuel
  induction fuel with
  | zero => intro s m evs s' h; simp [chain] at h
  | succ n ih =>
    intro s m evs s' h
    unfold chain at h
    by_cases hq : m.isTy STag.quit
    · simp [hq] at h
    · simp only [hq, if_neg, Bool.false_eq_true, not_false_eq_true, if_false] at h
      rcases hu : upd s m with ⟨s1, mo⟩
      rw [hu] at h
      cases mo with
      | none =>
        simp only [Option.some.injEq, Prod.mk.injEq] at h
        obtain ⟨h1, h2, _⟩ := h
        subst h1; subst h2
        exact Drains.last (Bool.not_eq_true _ ▸ by simpa using hq) hu
      | some m2 =>
        simp only [Option.map_eq_some'] at h
        obtain ⟨⟨evs2, s2, b2⟩, hc, heq⟩ := h
        simp only [Prod.mk.injEq] at heq
        obtain ⟨h1, h2, h3⟩ := heq
        subst h1; subst h2; subst h3
        exact Drains.step (by simpa using hq) hu (ih hc)

/-- A `chain` computation that stops with the `Quit` flag is exactly a
chain that reached a `Quit` envelope. -/
theorem chain_quits {σ : Type} {upd : σ → AMsg → σ × Option AMsg} :
    ∀ {fuel : Nat} {s : σ} {m : AMsg} {evs : List (Ev σ)} {s' : σ},
      chain upd fuel s m = some (evs, s', true) → QuitsDuring upd s m evs s' := by
  intro fuel
  induction fuel with
  | zero => intro s m evs s' h; simp [chain] at h
  | succ n ih =>
    intro s m evs s' h
    unfold chain at h
    by_cases hq : m.isTy STag.quit
    · simp only [hq, if_true, Option.some.injEq, Prod.mk.injEq] at h
      obtain ⟨h1, h2, _⟩ := h
      subst h1; subst h2
      exact QuitsDuring.here hq
    · simp only [hq, Bool.false_eq_true, not_false_eq_true, if_false] at h
      rcases hu : upd s m with ⟨s1, mo⟩
      rw [hu] at h
      cases mo with
      | none => simp at h
      | some m2 =>
        simp only [Option.map_eq_some'] at h
        obtain ⟨⟨evs2, s2, b2⟩, hc, heq⟩ := h
        simp only [Prod.mk.injEq] at heq
        obtain ⟨h1, h2, h3⟩ := heq
        subst h1; subst h2; subst h3
        exact QuitsDuring.step (by simpa using hq) hu (ih hc)

/-- When the loop consumes its whole queue without meeting `Quit`, its
trace is: one render of the initial state, then, per received envelope,
that envelope's fully-drained update chain followed by exactly one render
of the post-chain state. -/
theorem runFrom_awaiting {σ : Type} {upd : σ → AMsg → σ × Option AMsg}
    {view : σ → String} {fuel : Nat} :
    ∀ {s : σ} {msgs : List AMsg} {tr : List (Ev σ)} {sf : σ},
      runFrom upd view fuel s msgs = some (tr, .awaiting sf) →
      ∃ tr', tr = Ev.render (frame view s) :: tr' ∧
        MsgRenders upd view s msgs tr' sf := by
  intro s msgs
  induction msgs generalizing s with
  | nil =>
    intro tr sf h
    simp only [runFrom, Option.some.injEq, Prod.mk.injEq, RunEnd.awaiting.injEq] at h
    obtain ⟨h1, h2⟩ := h
    subst h2
    exact ⟨[], h1.symm, MsgRenders.nil⟩
  | cons m rest ih =>
    intro tr sf h
    unfold runFrom at h
    rcases hc : chain upd fuel s m with _ | ⟨evs, s', b⟩
    · rw [hc] at h; simp at h
    · rw [hc] at h
      cases b with
      | true => simp at h
      | false =>
        simp only [Option.some_bind, Bool.false_eq_true, if_false,
          Option.map_eq_some'] at h
        obtain ⟨⟨tr2, e2⟩, hr, heq⟩ := h
        simp only [Prod.mk.injEq] at heq
        obtain ⟨h1, h2⟩ := heq
        subst h2
        obtain ⟨tr', htr', hmr⟩ := ih hr
        refine ⟨evs ++ Ev.render (frame view s') :: tr', ?_, ?_⟩
        · rw [← h1, htr']
          simp
        · exact MsgRenders.cons (chain_drains hc) hmr

/-- When the loop halts (`break 'outer`), the queue splits into fully
drained-and-rendered envelopes, then the envelope whose chain reached
`Quit`, then unconsumed later arrivals; after the updates preceding `Quit`
the trace contains nothing — no render, no update of any later message. -/
theorem runFrom_quitHalt {σ : Type} {upd : σ → AMsg → σ × Option AMsg}
    {view : σ → String} {fuel : Nat} :
    ∀ {s : σ} {msgs : List AMsg} {tr : List (Ev σ)} {sf : σ},
      runFrom upd view fuel s msgs = some (tr, .quitHalt sf) →
      ∃ ms₁ m rest tr₁ s₁ us,
        msgs = ms₁ ++ m :: rest ∧
        MsgRenders upd view s ms₁ tr₁ s₁ ∧
        QuitsDuring upd s₁ m us sf ∧
        tr = Ev.render (frame view s) :: tr₁ ++ us := by
  intro s msgs
  induction msgs generalizing s with
  | nil =>
    intro tr sf h
    simp [runFrom] at h
  | cons m rest ih =>
    intro tr sf h
    unfold runFrom at h
    rcases hc : chain upd fuel s m with _ | ⟨evs, s', b⟩
    · rw [hc] at h; simp at h
    · rw [hc] at h
      cases b with
      | true =>
        simp only [Option.some_bind, if_true, Option.some.injEq, Prod.mk.injEq,
          RunEnd.quitHalt.injEq] at h
        obtain ⟨h1, h2⟩ := h
        subst h2
        exact ⟨[], m, rest, [], s, evs, rfl, MsgRenders.nil, chain_quits hc, by
          simpa using h1.symm⟩
      | false =>
        simp only [Option.some_bind, Bool.false_eq_true, if_false,
          Option.map_eq_some'] at h
        obtain ⟨⟨tr2, e2⟩, hr, heq⟩ := h
        simp only [Prod.mk.injEq] at heq
        obtain ⟨h1, h2⟩ := heq
        subst h2
        obtain ⟨ms₁, mq, rest', tr₁, s₁, us, hsplit, hmr, hq, htr⟩ := ih hr
        refine ⟨m :: ms₁, mq, rest', evs ++ Ev.render (frame view s') :: tr₁, s₁, us,
          ?_, MsgRenders.cons (chain_drains hc) hmr, hq, ?_⟩
        · rw [hsplit]; simp
        · rw [← h1, htr]; simp

/-! ## Claim theorems: envelope (C5, C6) -/

/-- C5: an envelope built by `Msg::new` from a payload `u` of type `U`
answers `Msg::cast::<T>()` with the original value exactly when `T = U`
and with `None` for every other probed type; `cast` is a total function
(never panics) of the immutable envelope, so repeated read-only probes
agree. -/
theorem cast_roundtrip {τ : Type u} [DecidableEq τ] {F : τ → Type v}
    (U T : τ) (u : F U) :
    (MsgG.new U u).cast U = some u ∧
    (T ≠ U → (MsgG.new U u).cast T = none) ∧
    (((MsgG.new U u).cast T).isSome = true ↔ T = U) := by
  have hself : (MsgG.new U u).cast U = some u := by
    simp [MsgG.cast, MsgG.new]
  refine ⟨hself, ?_, ?_⟩
  · intro hne
    simp [MsgG.cast, MsgG.new, Ne.symm hne]
  · by_cases hTU : T = U
    · subst hTU
      simp [hself]
    · simp [MsgG.cast, MsgG.new, Ne.symm hTU, hTU]

/-- Witness for C5 at concrete types: a `Key` envelope yields its payload
for `T = Key` and `None` when probed as `Quit`. -/
theorem cast_roundtrip_witness :
    (MsgG.new STag.key cKey : AMsg).cast STag.key = some cKey ∧
    (MsgG.new STag.key cKey : AMsg).cast STag.quit = none ∧
    (((MsgG.new STag.key cKey : AMsg).cast STag.quit).isSome = true ↔
      STag.quit = STag.key) :=
  ⟨(cast_roundtrip (F := SF) STag.key STag.quit cKey).1,
    (cast_roundtrip (F := SF) STag.key STag.quit cKey).2.1 (by decide),
    (cast_roundtrip (F := SF) STag.key STag.quit cKey).2.2⟩

/-- C6: `Msg::is::<T>()` answers `true` exactly when `Msg::cast::<T>()`
would yield a value; in particular `is::<Quit>()` holds of an envelope iff
it was built from the `Quit` payload, and is `false` for every other
built-in or consumer-defined payload type. -/
theorem is_iff_cast {τ : Type u} [DecidableEq τ] {F : τ → Type v}
    (m : MsgG τ F) (t : τ) :
    (m.isTy t = true ↔ (m.cast t).isSome = true) ∧
    (∀ (t' : STag) (v : SF t'),
      ((MsgG.new t' v : AMsg).isTy STag.quit = true ↔ t' = STag.quit)) := by
  constructor
  · unfold MsgG.isTy MsgG.cast
    by_cases h : m.tag = t
    · simp [h]
    · simp [h]
  · intro t' v
    unfold MsgG.isTy MsgG.new
    simp

/-- Witness for C6: the `Quit` envelope is recognised, a `Key` envelope is
not. -/
theorem is_iff_cast_witness :
    (quitMsg.isTy STag.quit = true ↔ (quitMsg.cast STag.quit).isSome = true) ∧
    (ckMsg.isTy STag.key = true ↔ (ckMsg.cast STag.key).isSome = true) ∧
    (ckMsg.isTy STag.quit = true ↔ STag.key = STag.quit) :=
  ⟨(is_iff_cast quitMsg STag.quit).1,
    (is_iff_cast ckMsg STag.key).1,
    (is_iff_cast ckMsg STag.key).2 STag.key cKey⟩

/-! ## Claim theorems: run loop (C1, C2) -/

/-- C1: over any queue of received envelopes that the loop consumes
entirely (no `Quit` met), the trace of `App::run`'s loop is exactly: one
render of the initial state, then, for each received envelope in order,
that envelope's fully-drained follow-up chain — one `update` per chain
message, so `N + 1` updates for a chain with `N` follow-ups, with no
render in between — followed by exactly one render, whose frame is
`view` of the model state at the end of that chain (never an intermediate
state). -/
theorem one_render_per_message {σ : Type} {upd : σ → AMsg → σ × Option AMsg}
    {view : σ → String} {fuel : Nat} {s : σ} {msgs : List AMsg}
    {tr : List (Ev σ)} {sf : σ}
    (h : runFrom upd view fuel s msgs = some (tr, .awaiting sf)) :
    ∃ tr', tr = Ev.render (frame view s) :: tr' ∧
      MsgRenders upd view s msgs tr' sf :=
  runFrom_awaiting h

/-- Witness for C1: the counter model consuming one key press renders
once after the single-update chain, showing the updated state. -/
theorem one_render_per_message_witness :
    ∃ tr', [Ev.render (frame cView 0), Ev.update ckMsg, Ev.render (frame cView 1)]
        = Ev.render (frame cView 0) :: tr' ∧
      MsgRenders cUpd cView 0 [ckMsg] tr' 1 :=
  @one_render_per_message Nat cUpd cView 2 0 [ckMsg]
    [Ev.render (frame cView 0), Ev.update ckMsg, Ev.render (frame cView 1)] 1 rfl

/-- C2: whenever the loop halts, the consumed queue splits as: fully
drained envelopes (each followed by its one render), then the envelope
whose chain — either the envelope itself or one of its follow-ups — is
`Quit`; from the moment `Quit` is observed the trace stops: no further
render, no further `update`, and no later-arriving envelope (`rest`) is
consumed.  Conversely the loop only reaches the teardown code (`RunEnd
.quitHalt`) through this case, so a `Quit` somewhere in a chain is the
sole normal termination. -/
theorem quit_halts_loop {σ : Type} {upd : σ → AMsg → σ × Option AMsg}
    {view : σ → String} {fuel : Nat} {s : σ} {msgs : List AMsg}
    {tr : List (Ev σ)} {sf : σ}
    (h : runFrom upd view fuel s msgs = some (tr, .quitHalt sf)) :
    ∃ ms₁ m rest tr₁ s₁ us,
      msgs = ms₁ ++ m :: rest ∧
      MsgRenders upd view s ms₁ tr₁ s₁ ∧
      QuitsDuring upd s₁ m us sf ∧
      tr = Ev.render (frame view s) :: tr₁ ++ us :=
  runFrom_quitHalt h

/-- Witness for C2: a "Tick" whose update returns `Quit` as follow-up
halts the loop with the later key press left unconsumed and no render
after the chain. -/
theorem quit_halts_loop_witness :
    ∃ ms₁ m rest tr₁ s₁ us,
      [tickMsg, ckMsg] = ms₁ ++ m :: rest ∧
      MsgRenders cUpdQ cView 0 ms₁ tr₁ s₁ ∧
      QuitsDuring cUpdQ s₁ m us 1 ∧
      [Ev.render (frame cView 0), Ev.update tickMsg]
        = Ev.render (frame cView 0) :: tr₁ ++ us :=
  @quit_halts_loop Nat cUpdQ cView 3 0 [tickMsg, ckMsg]
    [Ev.render (frame cView 0), Ev.update tickMsg] 1 rfl

/-! ## Claim theorems: startup ordering (C4) -/

/-- C4 counterexample: the claim says `startup()`'s message is processed
by `update` before any externally sourced message is consumed.  But the
event thread is spawned (line 148) before `startup()`'s message is sent
(line 151) on the same mpsc channel, so an envelope the thread sent in
between — here the key press in `pre` — is in front of the startup
message and is consumed first: the update order is `Key` then the
startup "Tick", not the other way around. -/
theorem startup_raced_by_event_thread :
    (appRun cStartup cUpd cView 3 0 [ckMsg] []).map (fun r => updatedTags r.1)
      = some [STag.key, STag.custom 0] ∧
    STag.key ≠ STag.custom 0 :=
  ⟨rfl, by decide⟩

/-- C4 (amended): `startup()` is invoked exactly once, before the first
render, and its message is enqueued on the shared channel; when no
externally sourced envelope arrived before that enqueue (`pre = []`), the
loop consumes the startup message first: after the initial frame, the
trace begins with the startup message's drained chain and its render —
one update+render cycle driven solely by the startup message — and only
then are the externally sourced envelopes (`post`) processed. -/
theorem startup_first_without_prior_events {σ : Type}
    {startup : σ → Option AMsg} {upd : σ → AMsg → σ × Option AMsg}
    {view : σ → String} {fuel : Nat} {m0 : σ} {post : List AMsg}
    {tr : List (Ev σ)} {sf : σ} {sm : AMsg}
    (hs : startup m0 = some sm)
    (h : appRun startup upd view fuel m0 [] post = some (tr, .awaiting sf)) :
    ∃ us s₁ tr₂,
      Drains upd m0 sm us s₁ ∧
      MsgRenders upd view s₁ post tr₂ sf ∧
      tr = Ev.render (frame view m0) :: us ++ Ev.render (frame view s₁) :: tr₂ := by
  unfold appRun at h
  rw [hs] at h
  simp only [List.nil_append, List.singleton_append] at h
  obtain ⟨tr', htr', hmr⟩ := runFrom_awaiting h
  cases hmr with
  | cons hd tl =>
    exact ⟨_, _, _, hd, tl, by rw [htr']; simp⟩

/-- Witness for the amended C4: the tick from `startup()` is consumed and
rendered before the key press that arrives afterwards. -/
theorem startup_first_without_prior_events_witness :
    ∃ us s₁ tr₂,
      Drains cUpd 0 tickMsg us s₁ ∧
      MsgRenders cUpd cView s₁ [ckMsg] tr₂ 2 ∧
      [Ev.render (frame cView 0), Ev.update tickMsg, Ev.render (frame cView 1),
        Ev.update ckMsg, Ev.render (frame cView 2)]
        = Ev.render (frame cView 0) :: us ++ Ev.render (frame cView s₁) :: tr₂ :=
  @startup_first_without_prior_events Nat cStartup cUpd cView 2 0 [ckMsg]
    [Ev.render (frame cView 0), Ev.update tickMsg, Ev.render (frame cView 1),
      Ev.update ckMsg, Ev.render (frame cView 2)] 2 tickMsg rfl rfl

/-! ## Claim theorems: terminal session restoration (C3) -/

/-- Unfolding equation of `floop` at zero fuel. -/
theorem floop_zero {σ : Type} (B : Backend) (M : FModel σ) (t : Term) (s : σ)
    (cur : Option AMsg) (queue : List AMsg) (rIdx : Nat) :
    floop B M 0 t s cur queue rIdx = (t, FOutcome.fuelOut) := rfl

/-- Unfolding equation of `floop` at the top of the outer loop. -/
theorem floop_succ_none {σ : Type} (B : Backend) (M : FModel σ) (n : Nat)
    (t : Term) (s : σ) (queue : List AMsg) (rIdx : Nat) :
    floop B M (n + 1) t s none queue rIdx =
      match M.view s with
      | .error e => (panicRestore B t, .panicked e)
      | .ok _ =>
        if B.printOk rIdx = false then (t, .ioErr)
        else if B.flushOk rIdx = false then (t, .ioErr)
        else
          match queue with
          | [] => (t, .blocked)
          | msg :: rest => floop B M n t s (some msg) rest (rIdx + 1) := rfl

/-- Unfolding equation of `floop` inside the `while let` chain. -/
theorem floop_succ_some {σ : Type} (B : Backend) (M : FModel σ) (n : Nat)
    (t : Term) (s : σ) (msg : AMsg) (queue : List AMsg) (rIdx : Nat) :
    floop B M (n + 1) t s (some msg) queue rIdx =
      (if msg.isTy STag.quit then
        if B.disableRawOk = false then (t, .ioErr)
        else
          let t2 : Term := { t with raw := false }
          if B.leaveAltOk = false then (t2, .ioErr)
          else ({ t2 with alt := false }, .ok)
      else
        match M.update s msg with
        | .error e => (panicRestore B t, .panicked e)
        | .ok (s', m2) => floop B M n t s' m2 queue rIdx) := rfl

/-- On every path out of `floop` that ends the process normally (`ok`) or
by a consumer panic (`panicked`), raw mode is off and the alternate
screen has been left — provided the two restoration calls themselves
succeed.  (The `ioErr` paths carry no such guarantee.) -/
theorem floop_restores {σ : Type} {B : Backend} {M : FModel σ}
    (hd : B.disableRawOk = true) (hl : B.leaveAltOk = true) :
    ∀ {fuel : Nat} {t : Term} {s : σ} {cur : Option AMsg} {queue : List AMsg}
      {rIdx : Nat} {t' : Term} {out : FOutcome},
      floop B M fuel t s cur queue rIdx = (t', out) →
      (out = FOutcome.ok ∨ ∃ e, out = FOutcome.panicked e) →
      t'.raw = false ∧ t'.alt = false := by
  have hrestore : ∀ t : Term,
      (panicRestore B t).raw = false ∧ (panicRestore B t).alt = false := by
    intro t
    simp [panicRestore, hd, hl]
  intro fuel
  induction fuel with
  | zero =>
    intro t s cur queue rIdx t' out h hout
    rw [floop_zero] at h
    simp only [Prod.mk.injEq] at h
    rcases hout with h3 | ⟨e, h3⟩ <;> rw [← h.2] at h3 <;> simp at h3
  | succ n ih =>
    intro t s cur queue rIdx t' out h hout
    cases cur with
    | none =>
      rw [floop_succ_none] at h
      cases hv : M.view s with
      | error e =>
        rw [hv] at h
        simp only [Prod.mk.injEq] at h
        rw [← h.1]
        exact hrestore t
      | ok f =>
        rw [hv] at h
        by_cases hp : B.printOk rIdx = false
        · rw [if_pos hp] at h
          simp only [Prod.mk.injEq] at h
          rcases hout with h3 | ⟨e, h3⟩ <;> rw [← h.2] at h3 <;> simp at h3
        · rw [if_neg hp] at h
          by_cases hf : B.flushOk rIdx = false
          · rw [if_pos hf] at h
            simp only [Prod.mk.injEq] at h
            rcases hout with h3 | ⟨e, h3⟩ <;> rw [← h.2] at h3 <;> simp at h3
          · rw [if_neg hf] at h
            cases queue with
            | nil =>
              simp only [Prod.mk.injEq] at h
              rcases hout with h3 | ⟨e, h3⟩ <;> rw [← h.2] at h3 <;> simp at h3
            | cons msg rest => exact ih h hout
    | some msg =>
      rw [floop_succ_some] at h
      by_cases hq : msg.isTy STag.quit
      · rw [if_pos hq, if_neg (by simp [hd]), if_neg (by simp [hl])] at h
        simp only [Prod.mk.injEq] at h
        rw [← h.1]
        exact ⟨rfl, rfl⟩
      · rw [if_neg hq] at h
        cases hu : M.update s msg with
        | error e =>
          rw [hu] at h
          simp only [Prod.mk.injEq] at h
          rw [← h.1]
          exact hrestore t
        | ok p =>
          rw [hu] at h
          obtain ⟨s', m2⟩ := p
          exact ih h hout

/-- C3 (amended): `App::run` restores the terminal — raw mode off,
alternate screen left — before returning normally after `Quit` and, via
the panic hook, before a consumer panic from `startup`, `update` or
`view` propagates (provided the restoration calls themselves succeed).
No such restoration exists on the backend-I/O-fault paths: an `Err`
escalated by `?` returns with the terminal state as it was (see the
counterexample theorem). -/
theorem run_restores_on_ok_or_panic {σ : Type} {B : Backend} {M : FModel σ}
    {fuel : Nat} {m0 : σ} {pre post : List AMsg} {t : Term} {out : FOutcome}
    (hd : B.disableRawOk = true) (hl : B.leaveAltOk = true)
    (h : frun B M fuel m0 pre post = (t, out))
    (hout : out = FOutcome.ok ∨ ∃ e, out = FOutcome.panicked e) :
    t.raw = false ∧ t.alt = false := by
  unfold frun at h
  by_cases he : B.enableRawOk = false
  · rw [if_pos he] at h
    simp only [Prod.mk.injEq] at h
    rcases hout with h3 | ⟨e, h3⟩ <;> rw [← h.2] at h3 <;> simp at h3
  · rw [if_neg he] at h
    by_cases ha : B.enterAltOk = false
    · rw [if_pos ha] at h
      simp only [Prod.mk.injEq] at h
      rcases hout with h3 | ⟨e, h3⟩ <;> rw [← h.2] at h3 <;> simp at h3
    · rw [if_neg ha] at h
      cases hs : M.startup m0 with
      | error e =>
        rw [hs] at h
        simp only [Prod.mk.injEq] at h
        rw [← h.1]
        simp [panicRestore, hd, hl]
      | ok sm =>
        rw [hs] at h
        exact floop_restores hd hl h hout

/-- Witness for the amended C3: a run that quits immediately on an
all-succeeding backend hands the terminal back restored. -/
theorem run_restores_on_ok_or_panic_witness :
    (⟨false, false⟩ : Term).raw = false ∧ (⟨false, false⟩ : Term).alt = false :=
  run_restores_on_ok_or_panic (B := okBackend) (M := trivialFModel)
    rfl rfl (show frun okBackend trivialFModel 5 () [quitMsg] []
      = (⟨false, false⟩, FOutcome.ok) from rfl) (Or.inl rfl)

/-- C3 counterexample: when `stdout.flush()` fails at the first frame,
`App::run` escalates the I/O fault with `?` (src/lib.rs line 158) and
returns while raw mode is still enabled and the alternate screen still
active — no cleanup runs on the `Err` path, and the panic hook does not
fire for an `Err` return — contradicting the claim that every exit path
of `run` restores the terminal. -/
theorem run_leaves_terminal_broken_on_io_fault :
    (frun flushFailBackend trivialFModel 5 () [] []).2 = FOutcome.ioErr ∧
    (frun flushFailBackend trivialFModel 5 () [] []).1.raw = true ∧
    (frun flushFailBackend trivialFModel 5 () [] []).1.alt = true :=
  ⟨rfl, rfl, rfl⟩

/-! ## Claim theorems: event-source thread (C7) -/

/-- C7: with the `paste` feature enabled, the event thread produces
exactly one envelope per raw event, in arrival order, each of the payload
type paired with the event's class; the payload carries the event's data
(`Key::from`/`Mouse::from` copies, the gained/lost variant, the resize
width and height, the pasted text). With the feature disabled, paste
events are discarded — the output is exactly the translation of the
non-paste events, so nothing else is blocked or reordered. -/
theorem event_thread_one_envelope_per_event :
    (∀ evs : List Event, (eventThreadMsgs true evs).length = evs.length) ∧
    (∀ evs : List Event,
      (eventThreadMsgs true evs).map (fun m => m.tag) = evs.map eventTag) ∧
    (∃ mg ml, translateEvent true Event.FocusGained = some mg ∧
      mg.cast STag.focus = some Focus.Gained ∧
      translateEvent true Event.FocusLost = some ml ∧
      ml.cast STag.focus = some Focus.Lost) ∧
    (∀ e : KeyEvent, ∃ m, translateEvent true (Event.Key e) = some m ∧
      m.cast STag.key = some (Key.fromEvent e)) ∧
    (∀ e : MouseEvent, ∃ m, translateEvent true (Event.Mouse e) = some m ∧
      m.cast STag.mouse = some (Mouse.fromEvent e)) ∧
    (∀ w h : Nat, ∃ m, translateEvent true (Event.Resize w h) = some m ∧
      m.cast STag.resize = some ⟨w, h⟩) ∧
    (∀ s : String, ∃ m, translateEvent true (Event.Paste s) = some m ∧
      m.cast STag.paste = some ⟨s⟩) ∧
    (translateEvent false (Event.Paste "x") = none) ∧
    (∀ evs : List Event,
      eventThreadMsgs false evs
        = eventThreadMsgs true (evs.filter (fun e => !e.isPaste))) := by
  refine ⟨?_, ?_, ?_, ?_, ?_, ?_, ?_, rfl, ?_⟩
  · intro evs
    induction evs with
    | nil => rfl
    | cons e rest ih =>
      cases e <;> simp [eventThreadMsgs, translateEvent] <;>
        simpa [eventThreadMsgs] using ih
  · intro evs
    induction evs with
    | nil => rfl
    | cons e rest ih =>
      cases e <;> simp [eventThreadMsgs, translateEvent, eventTag, MsgG.new] <;>
        simpa [eventThreadMsgs] using ih
  · exact ⟨_, _, rfl, rfl, rfl, rfl⟩
  · intro e
    exact ⟨_, rfl, rfl⟩
  · intro e
    exact ⟨_, rfl, rfl⟩
  · intro w h
    exact ⟨_, rfl, rfl⟩
  · intro s
    exact ⟨_, rfl, rfl⟩
  · intro evs
    induction evs with
    | nil => rfl
    | cons e rest ih =>
      cases e <;> simp [eventThreadMsgs, translateEvent, Event.isPaste] <;>
        simpa [eventThreadMsgs] using ih

/-! ## Claim theorems: the `bg` macro arm (C9) -/

/-- C9: each background-color shorthand generated by the `bg` arm of
`style_method!` assigns its color to the `fg` field and leaves `bg`
untouched, so each equals the corresponding foreground shorthand: the
style `on_red()` builds is `red()`'s, not one with a red background. -/
theorem bg_shorthands_set_fg :
    ∀ s : Style,
      (s.on_black = s.black ∧ s.on_black.bg = s.bg) ∧
      (s.on_dark_grey = s.dark_grey ∧ s.on_dark_grey.bg = s.bg) ∧
      (s.on_red = s.red ∧ s.on_red.bg = s.bg) ∧
      (s.on_dark_red = s.dark_red ∧ s.on_dark_red.bg = s.bg) ∧
      (s.on_green = s.green ∧ s.on_green.bg = s.bg) ∧
      (s.on_dark_green = s.dark_green ∧ s.on_dark_green.bg = s.bg) ∧
      (s.on_yellow = s.yellow ∧ s.on_yellow.bg = s.bg) ∧
      (s.on_dark_yellow = s.dark_yellow ∧ s.on_dark_yellow.bg = s.bg) ∧
      (s.on_blue = s.blue ∧ s.on_blue.bg = s.bg) ∧
      (s.on_dark_blue = s.dark_blue ∧ s.on_dark_blue.bg = s.bg) ∧
      (s.on_magenta = s.magenta ∧ s.on_magenta.bg = s.bg) ∧
      (s.on_dark_magenta = s.dark_magenta ∧ s.on_dark_magenta.bg = s.bg) ∧
      (s.on_cyan = s.cyan ∧ s.on_cyan.bg = s.bg) ∧
      (s.on_dark_cyan = s.dark_cyan ∧ s.on_dark_cyan.bg = s.bg) ∧
      (s.on_white = s.white ∧ s.on_white.bg = s.bg) ∧
      (s.on_grey = s.grey ∧ s.on_grey.bg = s.bg) :=
  fun _ =>
    ⟨⟨rfl, rfl⟩, ⟨rfl, rfl⟩, ⟨rfl, rfl⟩, ⟨rfl, rfl⟩, ⟨rfl, rfl⟩, ⟨rfl, rfl⟩,
      ⟨rfl, rfl⟩, ⟨rfl, rfl⟩, ⟨rfl, rfl⟩, ⟨rfl, rfl⟩, ⟨rfl, rfl⟩, ⟨rfl, rfl⟩,
      ⟨rfl, rfl⟩, ⟨rfl, rfl⟩, ⟨rfl, rfl⟩, ⟨rfl, rfl⟩⟩


/-! ## Lemmas on `visible_length` (C8, C10) -/

/-- Characters outside an escape sequence are all counted (one each). -/
theorem vla_plain :
    ∀ (cs : List Char), (∀ c ∈ cs, c ≠ '\x1b') →
      ∀ (n : Nat) (rest : List Char),
        visibleLengthAux false n (cs ++ rest)
          = visibleLengthAux false (n + cs.length) rest := by
  intro cs
  induction cs with
  | nil => intro _ n rest; simp
  | cons c cs ih =>
    intro h n rest
    have hc : c ≠ '\x1b' := h c (by simp)
    have step : visibleLengthAux false n (c :: (cs ++ rest))
        = visibleLengthAux false (n + 1) (cs ++ rest) := by
      simp [visibleLengthAux, hc]
    rw [List.cons_append, step,
      ih (fun c hc => h c (List.mem_cons_of_mem _ hc)) (n + 1) rest]
    congr 1
    rw [List.length_cons]
    omega

/-- Inside an escape sequence, everything up to the closing `m` is
skipped and the closing `m` returns to counting mode. -/
theorem vla_inEsc :
    ∀ (body : List Char), (∀ c ∈ body, c ≠ '\x1b' ∧ c ≠ 'm') →
      ∀ (n : Nat) (rest : List Char),
        visibleLengthAux true n (body ++ 'm' :: rest)
          = visibleLengthAux false n rest := by
  intro body
  induction body with
  | nil =>
    intro _ n rest
    simp [visibleLengthAux]
  | cons c cs ih =>
    intro h n rest
    obtain ⟨hce, hcm⟩ := h c (by simp)
    simp only [List.cons_append, visibleLengthAux, hce, if_false]
    rw [if_neg (by simp [hcm]), if_neg (by simp)]
    exact ih (fun c hc => h c (List.mem_cons_of_mem _ hc)) n rest

/-- A single well-formed escape sequence contributes nothing to the
visible length, wherever it stands. -/
theorem skip_esc_general (body : List Char)
    (h : ∀ c ∈ body, c ≠ '\x1b' ∧ c ≠ 'm') :
    SkipsEscapes ('\x1b' :: body ++ ['m']) := by
  intro n rest
  have : ('\x1b' :: body ++ ['m']) ++ rest = '\x1b' :: (body ++ 'm' :: rest) := by
    simp
  rw [this]
  show visibleLengthAux false n ('\x1b' :: (body ++ 'm' :: rest)) = _
  rw [show visibleLengthAux false n ('\x1b' :: (body ++ 'm' :: rest))
      = visibleLengthAux true n (body ++ 'm' :: rest) by
    simp [visibleLengthAux]]
  exact vla_inEsc body h n rest

/-- The empty prefix is skipped. -/
theorem skips_nil : SkipsEscapes [] := fun _ _ => rfl

/-- Skipped prefixes compose. -/
theorem skips_append {a b : List Char}
    (ha : SkipsEscapes a) (hb : SkipsEscapes b) : SkipsEscapes (a ++ b) := by
  intro n rest
  rw [List.append_assoc, ha, hb]

/-- Escape-free and `m`-free character lists compose under append. -/
theorem chars_ok_append {a b : List Char}
    (ha : ∀ c ∈ a, c ≠ '\x1b' ∧ c ≠ 'm') (hb : ∀ c ∈ b, c ≠ '\x1b' ∧ c ≠ 'm') :
    ∀ c ∈ a ++ b, c ≠ '\x1b' ∧ c ≠ 'm' := by
  intro c hc
  rcases List.mem_append.mp hc with h | h
  · exact ha c h
  · exact hb c h

/-- Escape-free and `m`-free character lists compose under cons. -/
theorem chars_ok_cons {x : Char} {b : List Char}
    (hx : x ≠ '\x1b' ∧ x ≠ 'm') (hb : ∀ c ∈ b, c ≠ '\x1b' ∧ c ≠ 'm') :
    ∀ c ∈ x :: b, c ≠ '\x1b' ∧ c ≠ 'm' := by
  intro c hc
  rcases List.mem_cons.mp hc with rfl | h
  · exact hx
  · exact hb c h

set_option maxRecDepth 8192 in
/-- The decimal rendering of a `u8` never contains `ESC` or `m`. -/
theorem repr_u8_chars :
    ∀ v : Fin 256, ∀ c ∈ (Nat.repr v.val).data, c ≠ '\x1b' ∧ c ≠ 'm' := by
  decide

/-- Every foreground color code is one escape sequence. -/
theorem fgCode_skips (c : Color) : SkipsEscapes (fgCode c).data := by
  cases c with
  | Reset => exact skip_esc_general ['[', '0'] (by decide)
  | Black => exact skip_esc_general ['[', '3', '0'] (by decide)
  | DarkGrey => exact skip_esc_general ['[', '9', '0'] (by decide)
  | Red => exact skip_esc_general ['[', '9', '1'] (by decide)
  | DarkRed => exact skip_esc_general ['[', '3', '1'] (by decide)
  | Green => exact skip_esc_general ['[', '9', '2'] (by decide)
  | DarkGreen => exact skip_esc_general ['[', '3', '2'] (by decide)
  | Yellow => exact skip_esc_general ['[', '9', '3'] (by decide)
  | DarkYellow => exact skip_esc_general ['[', '3', '3'] (by decide)
  | Blue => exact skip_esc_general ['[', '9', '4'] (by decide)
  | DarkBlue => exact skip_esc_general ['[', '3', '4'] (by decide)
  | Magenta => exact skip_esc_general ['[', '9', '5'] (by decide)
  | DarkMagenta => exact skip_esc_general ['[', '3', '5'] (by decide)
  | Cyan => exact skip_esc_general ['[', '9', '6'] (by decide)
  | DarkCyan => exact skip_esc_general ['[', '3', '6'] (by decide)
  | White => exact skip_esc_general ['[', '9', '7'] (by decide)
  | Grey => exact skip_esc_general ['[', '3', '7'] (by decide)
  | Rgb r g b =>
    have hb := skip_esc_general
      (['[', '3', '8', ';', '2', ';'] ++ ((Nat.repr r.val).data ++
        (';' :: ((Nat.repr g.val).data ++ (';' :: (Nat.repr b.val).data)))))
      (chars_ok_append (by decide)
        (chars_ok_append (repr_u8_chars r)
          (chars_ok_cons (by decide)
            (chars_ok_append (repr_u8_chars g)
              (chars_ok_cons (by decide) (repr_u8_chars b))))))
    intro n rest
    have hdata : (fgCode (Color.Rgb r g b)).data
        = '\x1b' :: (['[', '3', '8', ';', '2', ';'] ++ ((Nat.repr r.val).data ++
          (';' :: ((Nat.repr g.val).data ++ (';' :: (Nat.repr b.val).data))))) ++ ['m'] := by
      simp [fgCode, String.data_append]
    rw [hdata]
    exact hb n rest
  | AnsiValue v =>
    have hb := skip_esc_general (['[', '3', '8', ';', '5', ';'] ++ (Nat.repr v.val).data)
      (chars_ok_append (by decide) (repr_u8_chars v))
    intro n rest
    have hdata : (fgCode (Color.AnsiValue v)).data
        = '\x1b' :: (['[', '3', '8', ';', '5', ';'] ++ (Nat.repr v.val).data) ++ ['m'] := by
      simp [fgCode, String.data_append]
    rw [hdata]
    exact hb n rest

/-- Every background color code is one escape sequence. -/
theorem bgCode_skips (c : Color) : SkipsEscapes (bgCode c).data := by
  cases c with
  | Reset => exact skip_esc_general ['[', '4', '9'] (by decide)
  | Black => exact skip_esc_general ['[', '4', '0'] (by decide)
  | DarkGrey => exact skip_esc_general ['[', '1', '0', '0'] (by decide)
  | Red => exact skip_esc_general ['[', '1', '0', '1'] (by decide)
  | DarkRed => exact skip_esc_general ['[', '4', '1'] (by decide)
  | Green => exact skip_esc_general ['[', '1', '0', '2'] (by decide)
  | DarkGreen => exact skip_esc_general ['[', '4', '2'] (by decide)
  | Yellow => exact skip_esc_general ['[', '1', '0', '3'] (by decide)
  | DarkYellow => exact skip_esc_general ['[', '4', '3'] (by decide)
  | Blue => exact skip_esc_general ['[', '1', '0', '4'] (by decide)
  | DarkBlue => exact skip_esc_general ['[', '4', '4'] (by decide)
  | Magenta => exact skip_esc_general ['[', '1', '0', '5'] (by decide)
  | DarkMagenta => exact skip_esc_general ['[', '4', '5'] (by decide)
  | Cyan => exact skip_esc_general ['[', '1', '0', '6'] (by decide)
  | DarkCyan => exact skip_esc_general ['[', '4', '6'] (by decide)
  | White => exact skip_esc_general ['[', '1', '0', '7'] (by decide)
  | Grey => exact skip_esc_general ['[', '4', '7'] (by decide)
  | Rgb r g b =>
    have hb := skip_esc_general
      (['[', '4', '8', ';', '2', ';'] ++ ((Nat.repr r.val).data ++
        (';' :: ((Nat.repr g.val).data ++ (';' :: (Nat.repr b.val).data)))))
      (chars_ok_append (by decide)
        (chars_ok_append (repr_u8_chars r)
          (chars_ok_cons (by decide)
            (chars_ok_append (repr_u8_chars g)
              (chars_ok_cons (by decide) (repr_u8_chars b))))))
    intro n rest
    have hdata : (bgCode (Color.Rgb r g b)).data
        = '\x1b' :: (['[', '4', '8', ';', '2', ';'] ++ ((Nat.repr r.val).data ++
          (';' :: ((Nat.repr g.val).data ++ (';' :: (Nat.repr b.val).data))))) ++ ['m'] := by
      simp [bgCode, String.data_append]
    rw [hdata]
    exact hb n rest
  | AnsiValue v =>
    have hb := skip_esc_general (['[', '4', '8', ';', '5', ';'] ++ (Nat.repr v.val).data)
      (chars_ok_append (by decide) (repr_u8_chars v))
    intro n rest
    have hdata : (bgCode (Color.AnsiValue v)).data
        = '\x1b' :: (['[', '4', '8', ';', '5', ';'] ++ (Nat.repr v.val).data) ++ ['m'] := by
      simp [bgCode, String.data_append]
    rw [hdata]
    exact hb n rest

/-- Every underline color code is one escape sequence. -/
theorem underlineCode_skips (c : Color) : SkipsEscapes (underlineCode c).data := by
  cases c with
  | Reset => exact skip_esc_general ['[', '5', '9'] (by decide)
  | Black => exact skip_esc_general ['[', '5', '8', ';', '5', ';', '0'] (by decide)
  | DarkGrey => exact skip_esc_general ['[', '5', '8', ';', '5', ';', '8'] (by decide)
  | Red => exact skip_esc_general ['[', '5', '8', ';', '5', ';', '9'] (by decide)
  | DarkRed => exact skip_esc_general ['[', '5', '8', ';', '5', ';', '1'] (by decide)
  | Green => exact skip_esc_general ['[', '5', '8', ';', '5', ';', '1', '0'] (by decide)
  | DarkGreen => exact skip_esc_general ['[', '5', '8', ';', '5', ';', '2'] (by decide)
  | Yellow => exact skip_esc_general ['[', '5', '8', ';', '5', ';', '1', '1'] (by decide)
  | DarkYellow => exact skip_esc_general ['[', '5', '8', ';', '5', ';', '3'] (by decide)
  | Blue => exact skip_esc_general ['[', '5', '8', ';', '5', ';', '1', '2'] (by decide)
  | DarkBlue => exact skip_esc_general ['[', '5', '8', ';', '5', ';', '4'] (by decide)
  | Magenta => exact skip_esc_general ['[', '5', '8', ';', '5', ';', '1', '3'] (by decide)
  | DarkMagenta => exact skip_esc_general ['[', '5', '8', ';', '5', ';', '5'] (by decide)
  | Cyan => exact skip_esc_general ['[', '5', '8', ';', '5', ';', '1', '4'] (by decide)
  | DarkCyan => exact skip_esc_general ['[', '5', '8', ';', '5', ';', '6'] (by decide)
  | White => exact skip_esc_general ['[', '5', '8', ';', '5', ';', '1', '5'] (by decide)
  | Grey => exact skip_esc_general ['[', '5', '8', ';', '5', ';', '7'] (by decide)
  | Rgb r g b =>
    have hb := skip_esc_general
      (['[', '5', '8', ';', '2', ';'] ++ ((Nat.repr r.val).data ++
        (';' :: ((Nat.repr g.val).data ++ (';' :: (Nat.repr b.val).data)))))
      (chars_ok_append (by decide)
        (chars_ok_append (repr_u8_chars r)
          (chars_ok_cons (by decide)
            (chars_ok_append (repr_u8_chars g)
              (chars_ok_cons (by decide) (repr_u8_chars b))))))
    intro n rest
    have hdata : (underlineCode (Color.Rgb r g b)).data
        = '\x1b' :: (['[', '5', '8', ';', '2', ';'] ++ ((Nat.repr r.val).data ++
          (';' :: ((Nat.repr g.val).data ++ (';' :: (Nat.repr b.val).data))))) ++ ['m'] := by
      simp [underlineCode, String.data_append]
    rw [hdata]
    exact hb n rest
  | AnsiValue v =>
    have hb := skip_esc_general (['[', '5', '8', ';', '5', ';'] ++ (Nat.repr v.val).data)
      (chars_ok_append (by decide) (repr_u8_chars v))
    intro n rest
    have hdata : (underlineCode (Color.AnsiValue v)).data
        = '\x1b' :: (['[', '5', '8', ';', '5', ';'] ++ (Nat.repr v.val).data) ++ ['m'] := by
      simp [underlineCode, String.data_append]
    rw [hdata]
    exact hb n rest

/-- The whole style prefix written by `Style::render` before the padding
is a concatenation of escape sequences: `visible_length` skips it. -/
theorem styleCodes_skips (st : Style) : SkipsEscapes (styleCodes st).data := by
  unfold styleCodes
  simp only [String.data_append, List.append_assoc]
  refine skips_append ?_ (skips_append ?_ (skips_append ?_ (skips_append ?_
    (skips_append ?_ (skips_append ?_ (skips_append ?_ (skips_append ?_
      (skips_append ?_ ?_))))))))
  · cases st.bold
    · exact skips_nil
    · exact skip_esc_general ['[', '1'] (by decide)
  · cases st.dim
    · exact skips_nil
    · exact skip_esc_general ['[', '2'] (by decide)
  · cases st.italic
    · exact skips_nil
    · exact skip_esc_general ['[', '3'] (by decide)
  · cases st.underline
    · exact skips_nil
    · exact skip_esc_general ['[', '4'] (by decide)
  · cases st.blink with
    | none => exact skips_nil
    | some sp =>
      cases sp
      · exact skip_esc_general ['[', '5'] (by decide)
      · exact skip_esc_general ['[', '6'] (by decide)
  · cases st.reverse
    · exact skips_nil
    · exact skip_esc_general ['[', '7'] (by decide)
  · cases st.crossedOut
    · exact skips_nil
    · exact skip_esc_general ['[', '9'] (by decide)
  · cases st.fg with
    | none => exact skips_nil
    | some c => exact fgCode_skips c
  · cases st.bg with
    | none => exact skips_nil
    | some c => exact bgCode_skips c
  · cases st.underlineColor with
    | none => exact skips_nil
    | some c => exact underlineCode_skips c

/-- On an escape-free string, `visible_length` is the character count. -/
theorem visibleLength_no_esc (text : String)
    (h : ∀ c ∈ text.data, c ≠ '\x1b') :
    visibleLength text = text.data.length := by
  unfold visibleLength
  have := vla_plain text.data h 0 []
  rw [List.append_nil] at this
  simpa using this

/-- Counting with an accumulator: a concatenation of well-formed plain
and escape segments counts exactly the plain characters. -/
theorem vla_segs_aux :
    ∀ (segs : List (List Char ⊕ List Char)),
      (∀ sg ∈ segs, segOk sg = true) →
      ∀ n : Nat,
        visibleLengthAux false n ((segs.map segStr).flatten) = n + plainTotal segs := by
  intro segs
  induction segs with
  | nil =>
    intro _ n
    simp [plainTotal, visibleLengthAux]
  | cons sg rest ih =>
    intro h n
    have hrest : ∀ sg ∈ rest, segOk sg = true :=
      fun sg hsg => h sg (List.mem_cons_of_mem _ hsg)
    cases sg with
    | inl p =>
      have hp : ∀ c ∈ p, c ≠ '\x1b' := by
        have := h (Sum.inl p) (List.mem_cons_self _ _)
        simpa [segOk, List.all_eq_true] using this
      simp only [List.map_cons, List.flatten, segStr]
      rw [vla_plain p hp n _, ih hrest (n + p.length)]
      simp [plainTotal]
      omega
    | inr b =>
      have hb : ∀ c ∈ b, c ≠ '\x1b' ∧ c ≠ 'm' := by
        have := h (Sum.inr b) (List.mem_cons_self _ _)
        simpa [segOk, List.all_eq_true] using this
      simp only [List.map_cons, List.flatten, segStr]
      rw [skip_esc_general b hb n _, ih hrest n]
      simp [plainTotal]

/-! ## Claim theorems: `visible_length` (C8) -/

/-- C8: `visible_length` counts only printable characters, never bytes of
ANSI escape sequences, no matter how many sequences appear or where: over
any interleaving of plain segments and escape sequences it returns the
total length of the plain segments.  In particular, for a left-aligned
style and escape-free text, `visible_length(style.render(text))` equals
`visible_length(text)`, which equals the character count of `text`. -/
theorem visible_length_counts_only_printable :
    (∀ (segs : List (List Char ⊕ List Char)),
      (∀ sg ∈ segs, segOk sg = true) →
      visibleLengthAux false 0 ((segs.map segStr).flatten) = plainTotal segs) ∧
    (∀ (st : Style) (cols rows : Nat) (text : String),
      st.align = Align.Left → (∀ c ∈ text.data, c ≠ '\x1b') →
      ∃ out, Style.render st (some (cols, rows)) text = some out ∧
        visibleLength out = visibleLength text ∧
        visibleLength text = text.length) := by
  constructor
  · intro segs h
    simpa using vla_segs_aux segs h 0
  · intro st cols rows text hal hesc
    refine ⟨styleCodes st ++ text ++ "\x1b[0m", by simp [Style.render, hal], ?_, ?_⟩
    · have hres : ∀ k : Nat, visibleLengthAux false k "\x1b[0m".data = k :=
        fun _ => rfl
      have h1 : visibleLength (styleCodes st ++ text ++ "\x1b[0m")
          = text.data.length := by
        unfold visibleLength
        simp only [String.data_append, List.append_assoc]
        rw [styleCodes_skips st 0 _, vla_plain text.data hesc 0 _, hres]
        omega
      rw [h1, visibleLength_no_esc text hesc]
    · rw [visibleLength_no_esc text hesc]
      rfl

/-- Witness for C8: two escape sequences around plain `hi` count 2, and
the default (left) style round-trips `hi` through `render`. -/
theorem visible_length_counts_only_printable_witness :
    (visibleLengthAux false 0
        (([Sum.inr ['[', '3', '1'], Sum.inl ['h', 'i'], Sum.inr ['[', '0']].map
          segStr).flatten)
      = plainTotal [Sum.inr ['[', '3', '1'], Sum.inl ['h', 'i'],
          Sum.inr ['[', '0']]) ∧
    (∃ out, Style.render Style.new (some (80, 24)) "hi" = some out ∧
      visibleLength out = visibleLength "hi" ∧
      visibleLength "hi" = "hi".length) :=
  ⟨visible_length_counts_only_printable.1 _ (by
      intro sg hsg
      simp only [List.mem_cons, List.not_mem_nil, or_false] at hsg
      rcases hsg with rfl | rfl | rfl <;> rfl),
    visible_length_counts_only_printable.2 Style.new 80 24 "hi" rfl (by decide)⟩

/-! ## Claim theorems: totality of `Style::render` (C10) -/

/-- C10: with a left alignment `Style::render` is total for every text
(given the terminal size query succeeds, which every alignment needs:
`terminal_size().unwrap()`).  For center and right alignment the unsigned
padding subtractions `cols / 2 - len / 2` and `cols - len` make it
partial: the precondition `visible_length(text) ≤ cols` guarantees both
are defined, a right-aligned render faults exactly when `len > cols`, and
a center-aligned one exactly when `len / 2 > cols / 2` (the precise
boundary of its subtraction, implied by the stated precondition). -/
theorem render_total_conditions :
    (∀ (st : Style) (cols rows : Nat) (text : String), st.align = Align.Left →
      ∃ out, Style.render st (some (cols, rows)) text = some out) ∧
    (∀ (st : Style) (text : String), Style.render st none text = none) ∧
    (∀ (st : Style) (cols rows : Nat) (text : String),
      visibleLength text ≤ cols →
      ∃ out, Style.render st (some (cols, rows)) text = some out) ∧
    (∀ (st : Style) (cols rows : Nat) (text : String), st.align = Align.Right →
      cols < visibleLength text →
      Style.render st (some (cols, rows)) text = none) ∧
    (∀ (st : Style) (cols rows : Nat) (text : String), st.align = Align.Center →
      cols / 2 < visibleLength text / 2 →
      Style.render st (some (cols, rows)) text = none) := by
  refine ⟨?_, ?_, ?_, ?_, ?_⟩
  · intro st cols rows text hal
    exact ⟨styleCodes st ++ text ++ "\x1b[0m", by simp [Style.render, hal]⟩
  · intro st text
    rfl
  · intro st cols rows text hlen
    cases hal : st.align with
    | Left => exact ⟨styleCodes st ++ text ++ "\x1b[0m", by simp [Style.render, hal]⟩
    | Center =>
      exact ⟨styleCodes st ++ spaces (cols / 2 - visibleLength text / 2) ++ text
          ++ "\x1b[0m",
        by simp [Style.render, hal, Nat.div_le_div_right hlen]⟩
    | Right =>
      exact ⟨styleCodes st ++ spaces (cols - visibleLength text) ++ text
          ++ "\x1b[0m",
        by simp [Style.render, hal, hlen]⟩
  · intro st cols rows text hal hgt
    simp [Style.render, hal, show ¬visibleLength text ≤ cols from by omega]
  · intro st cols rows text hal hgt
    simp [Style.render, hal,
      show ¬visibleLength text / 2 ≤ cols / 2 from by omega]

/-- Witness for C10: the default left style renders under any width; a
right-aligned style renders a fitting text and faults on a zero-width
terminal; a centered two-character text faults likewise. -/
theorem render_total_conditions_witness :
    (∃ out, Style.render Style.new (some (80, 24)) "hi" = some out) ∧
    (∃ out, Style.render Style.new.right (some (80, 24)) "hi" = some out) ∧
    Style.render Style.new.right (some (0, 0)) "!" = none ∧
    Style.render Style.new.center (some (0, 0)) "!!" = none :=
  ⟨render_total_conditions.1 Style.new 80 24 "hi" rfl,
    render_total_conditions.2.2.1 Style.new.right 80 24 "hi" (by decide),
    render_total_conditions.2.2.2.1 Style.new.right 0 0 "!" rfl (by decide),
    render_total_conditions.2.2.2.2 Style.new.center 0 0 "!!" rfl (by decide)⟩

end Sketch
